import Mathlib

/-!
Verification development for the `pygmm` ground-motion model base module
(`pygmm/model.py`).  The Python source is shallowly embedded: parameter
values are rationals (numeric) or strings (categorical), the log-response
arrays are lists of reals, `logging.warning` / `logging.error` calls are
modelled as emitted `Event` values, and a raised Python exception is the
`Except.error` branch.
-/

namespace Pygmm

/-- Severity level of an observability (logging) event. -/
inductive Severity
  | warning
  | error
deriving DecidableEq, Repr

/-- An observability event emitted during parameter checking.  The source
emits formatted log messages; we keep the structured content (parameter
name, value, offending bound / allowed options). -/
inductive Event
  | numBelowMin (name : String) (value : ℚ) (min : ℚ)
  | numAboveMax (name : String) (value : ℚ) (max : ℚ)
  | catNotOption (severity : Severity) (name : String) (value : String)
      (options : List String)
deriving DecidableEq, Repr

/-- Severity of an event: numeric bound violations are always emitted with
`logging.warning`; categorical violations use `logging.error` when the
parameter is required and `logging.warning` otherwise. -/
def Event.severity : Event → Severity
  | .numBelowMin _ _ _ => .warning
  | .numAboveMax _ _ _ => .warning
  | .catNotOption s _ _ _ => s

/-- The parameter name an event refers to. -/
def Event.name : Event → String
  | .numBelowMin n _ _ => n
  | .numAboveMax n _ _ => n
  | .catNotOption _ n _ _ => n

/-- A raised Python exception.  `valueError` models
`raise ValueError(self.name, "is a required parameter")`; `typeMismatch`
is an embedding artifact for arguments of the wrong kind (outside the
modelled domain; unreached in all theorems below, which quantify over
well-typed inputs only). -/
inductive CheckError
  | valueError (name : String) (msg : String)
  | typeMismatch (name : String)
deriving DecidableEq, Repr

/-- `NumericParameter(name, required, min, max, default)` from the source. -/
structure NumericParameter where
  name : String
  required : Bool
  min : Option ℚ
  max : Option ℚ
  default : Option ℚ
deriving DecidableEq, Repr

/-- The bound-violation events emitted by `NumericParameter.check` for a
present value: `if self.min is not None and value < self.min: …warning…
elif self.max is not None and self.max < value: …warning…`. -/
def numericEvents (p : NumericParameter) (v : ℚ) : List Event :=
  match p.min with
  | some mn =>
      if v < mn then [Event.numBelowMin p.name v mn]
      else
        match p.max with
        | some mx => if mx < v then [Event.numAboveMax p.name v mx] else []
        | none => []
  | none =>
      match p.max with
      | some mx => if mx < v then [Event.numAboveMax p.name v mx] else []
      | none => []

/-- `NumericParameter.check`: raises `ValueError` when the value is absent
and the parameter is required; substitutes the default when absent
otherwise; for a present value emits at most one warning and returns the
value unchanged. -/
def NumericParameter.check (p : NumericParameter) (value : Option ℚ) :
    Except CheckError (Option ℚ × List Event) :=
  match value with
  | none =>
      if p.required then .error (.valueError p.name "is a required parameter")
      else .ok (p.default, [])
  | some v => .ok (some v, numericEvents p v)

/-- `CategoricalParameter(name, required, options, default)` from the
source (`options or []` normalises a missing option list; `default` is
the empty string by default). -/
structure CategoricalParameter where
  name : String
  required : Bool
  options : List String
  default : String
deriving DecidableEq, Repr

/-- `CategoricalParameter.check`: raises `ValueError` when absent and
required; substitutes the default when absent otherwise; for a present
value not among the options emits one event — `logging.error` if the
parameter is required, `logging.warning` otherwise — and returns the value
unchanged. -/
def CategoricalParameter.check (p : CategoricalParameter)
    (value : Option String) : Except CheckError (String × List Event) :=
  match value with
  | none =>
      if p.required then .error (.valueError p.name "is a required parameter")
      else .ok (p.default, [])
  | some v =>
      if v ∈ p.options then .ok (v, [])
      else
        .ok (v, [Event.catNotOption
          (if p.required then .error else .warning) p.name v p.options])

/-- A keyword-argument value: Python is untyped, but numeric parameters
receive numbers and categorical parameters receive strings. -/
inductive PVal
  | num (q : ℚ)
  | cat (s : String)
deriving DecidableEq, Repr

/-- An entry of the `PARAMS` declaration list of a model. -/
inductive ParamSpec
  | num (p : NumericParameter)
  | cat (p : CategoricalParameter)
deriving DecidableEq, Repr

/-- The declared name of a parameter spec. -/
def ParamSpec.name : ParamSpec → String
  | .num p => p.name
  | .cat p => p.name

/-- Whether the parameter spec is required. -/
def ParamSpec.required : ParamSpec → Bool
  | .num p => p.required
  | .cat p => p.required

/-- The declared default of a parameter spec, as a keyword value. -/
def ParamSpec.defaultVal : ParamSpec → Option PVal
  | .num p => p.default.map PVal.num
  | .cat p => some (PVal.cat p.default)

/-- Does a keyword value have the kind the parameter spec expects? -/
def ParamSpec.kindMatches : ParamSpec → PVal → Bool
  | .num _, .num _ => true
  | .cat _, .cat _ => true
  | _, _ => false

/-- Dispatch of `Parameter.check` on a keyword value.  A value of the
wrong kind yields the embedding-artifact `typeMismatch` error; every
theorem below restricts to well-typed inputs, where this branch is
unreached. -/
def ParamSpec.checkVal : ParamSpec → Option PVal →
    Except CheckError (Option PVal × List Event)
  | .num p, none =>
      match p.check none with
      | .error e => .error e
      | .ok (r, evs) => .ok (r.map PVal.num, evs)
  | .num p, some (.num q) =>
      match p.check (some q) with
      | .error e => .error e
      | .ok (r, evs) => .ok (r.map PVal.num, evs)
  | .num p, some (.cat _) => .error (.typeMismatch p.name)
  | .cat p, none =>
      match p.check none with
      | .error e => .error e
      | .ok (r, evs) => .ok (some (PVal.cat r), evs)
  | .cat p, some (.cat s) =>
      match p.check (some s) with
      | .error e => .error e
      | .ok (r, evs) => .ok (some (PVal.cat r), evs)
  | .cat p, some (.num _) => .error (.typeMismatch p.name)

/-- `kwds.get(name, None)` over the keyword-argument dictionary, modelled
as an association list. -/
def kwdGet : List (String × PVal) → String → Option PVal
  | [], _ => none
  | (k, v) :: rest, n => if k = n then some v else kwdGet rest n

/-- `Model.__init__` + `Model._check_inputs`: builds
`params = {p.name: kwds.get(p.name, None) for p in PARAMS}` and then
replaces each entry by `p.check(params[p.name])`, in declaration order,
propagating the first raised exception.  (The dict build itself cannot
fail; under the unique-name invariant the two source loops collapse to
this single pass.)  On success: the resolved `params` mapping, in
declaration order, together with all emitted events. -/
def modelInit : List ParamSpec → List (String × PVal) →
    Except CheckError (List (String × Option PVal) × List Event)
  | [], _ => .ok ([], [])
  | p :: rest, kwds =>
      match p.checkVal (kwdGet kwds p.name) with
      | .error e => .error e
      | .ok (v, evs) =>
          match modelInit rest kwds with
          | .error e => .error e
          | .ok (tail, evs2) => .ok ((p.name, v) :: tail, evs ++ evs2)

/-- Numpy fancy indexing `xs[idx]` over a list, with out-of-range indices
defaulted (all theorems use in-range index sets). -/
def select (xs : List ℝ) (idx : List ℕ) : List ℝ :=
  idx.map (fun i => xs.getD i 0)

/-- One step of `np.interp` past the first knot: walk consecutive knot
pairs `(x1,y1)`, `(x2,y2)` and linearly interpolate in the first interval
whose right endpoint reaches the query; past the last knot, hold the last
value. -/
noncomputable def interpGo (x : ℝ) : ℝ → ℝ → List (ℝ × ℝ) → ℝ
  | _, y1, [] => y1
  | x1, y1, (x2, y2) :: rest =>
      if x ≤ x2 then y1 + (y2 - y1) * (x - x1) / (x2 - x1)
      else interpGo x x2 y2 rest

/-- `np.interp(x, xp, fp)` for a scalar query `x` over knot list
`pts = zip xp fp`: clamps below the first knot, interpolates linearly
between knots, clamps above the last knot.  Empty knot list is an error in
numpy; we return 0 (unreached in the theorems). -/
noncomputable def interpAux (x : ℝ) : List (ℝ × ℝ) → ℝ
  | [] => 0
  | (x1, y1) :: rest => if x ≤ x1 then y1 else interpGo x x1 y1 rest

/-- `np.interp` applied elementwise to a list of query points. -/
noncomputable def npInterp (xs : List ℝ) (xp fp : List ℝ) : List ℝ :=
  xs.map (fun x => interpAux x (xp.zip fp))

/-- The class-level configuration and populated response state of a
`Model` instance: `PERIODS`, `INDICES_PSA`, the optional scalar indices,
the scale factors, and the `_ln_resp` / `_ln_std` arrays filled in by the
concrete subclass. -/
structure GMModel where
  PERIODS : List ℝ
  INDICES_PSA : List ℕ
  INDEX_PGA : Option ℕ
  INDEX_PGV : Option ℕ
  INDEX_PGD : Option ℕ
  PGV_SCALE : ℝ
  PGD_SCALE : ℝ
  ln_resp : List ℝ
  ln_std : List ℝ

/-- `Model.periods`: `PERIODS[INDICES_PSA]`. -/
def GMModel.periodsL (m : GMModel) : List ℝ :=
  select m.PERIODS m.INDICES_PSA

/-- `Model.spec_accels`: `exp(_ln_resp[INDICES_PSA])`. -/
noncomputable def GMModel.spec_accels (m : GMModel) : List ℝ :=
  (select m.ln_resp m.INDICES_PSA).map Real.exp

/-- `Model.ln_stds`: `_ln_std[INDICES_PSA]`. -/
def GMModel.ln_stds (m : GMModel) : List ℝ :=
  select m.ln_std m.INDICES_PSA

/-- `Model.interp_spec_accels`:
`exp(np.interp(log(periods), log(self.periods), _ln_resp[INDICES_PSA]))`. -/
noncomputable def GMModel.interp_spec_accels (m : GMModel) (periods : List ℝ) : List ℝ :=
  (npInterp (periods.map Real.log) (m.periodsL.map Real.log)
    (select m.ln_resp m.INDICES_PSA)).map Real.exp

/-- `Model.interp_ln_stds`:
`np.interp(log(periods), log(self.periods), _ln_std[INDICES_PSA])`. -/
noncomputable def GMModel.interp_ln_stds (m : GMModel) (periods : List ℝ) : List ℝ :=
  npInterp (periods.map Real.log) (m.periodsL.map Real.log)
    (select m.ln_std m.INDICES_PSA)

/-- Result of a scalar accessor property (`pga`, `pgv`, `pgd`).  The
source does `return NotImplementedError` — it returns the exception CLASS
as an ordinary value instead of raising it — when the corresponding index
is `None`; `notImplementedError` models that returned value. -/
inductive ScalarResult
  | notImplementedError
  | val (x : ℝ)

/-- `Model._resp(index)` for a non-`None` index: `exp(_ln_resp[index])`. -/
noncomputable def GMModel.resp (m : GMModel) (index : ℕ) : ℝ :=
  Real.exp (m.ln_resp.getD index 0)

/-- `Model.pga`: returns the `NotImplementedError` class when `INDEX_PGA`
is `None`, else `_resp(INDEX_PGA)` (no scale factor). -/
noncomputable def GMModel.pga (m : GMModel) : ScalarResult :=
  match m.INDEX_PGA with
  | none => .notImplementedError
  | some i => .val (m.resp i)

/-- `Model.pgv`: returns the `NotImplementedError` class when `INDEX_PGV`
is `None`, else `_resp(INDEX_PGV) * PGV_SCALE`. -/
noncomputable def GMModel.pgv (m : GMModel) : ScalarResult :=
  match m.INDEX_PGV with
  | none => .notImplementedError
  | some i => .val (m.resp i * m.PGV_SCALE)

/-- `Model.pgd`: returns the `NotImplementedError` class when `INDEX_PGD`
is `None`, else `_resp(INDEX_PGD) * PGD_SCALE`. -/
noncomputable def GMModel.pgd (m : GMModel) : ScalarResult :=
  match m.INDEX_PGD with
  | none => .notImplementedError
  | some i => .val (m.resp i * m.PGD_SCALE)

/-! ### Parameter-level properties -/

/-- C3: for every `NumericParameter` with both bounds and every present
value, `check` returns the original value unchanged (never clamped) and
never raises; a value outside `[min, max]` is accompanied by exactly one
warning-severity event naming the parameter, the value and the offending
bound, and a value inside the bounds produces no event. -/
theorem numeric_check_soft_bounds (p : NumericParameter) (mn mx v : ℚ)
    (hmin : p.min = some mn) (hmax : p.max = some mx) :
    ∃ evs : List Event, p.check (some v) = .ok (some v, evs) ∧
      (mn ≤ v → v ≤ mx → evs = []) ∧
      (v < mn → evs = [Event.numBelowMin p.name v mn]) ∧
      (mx < v → mn ≤ v → evs = [Event.numAboveMax p.name v mx]) ∧
      ∀ e ∈ evs, e.severity = Severity.warning := by
  refine ⟨numericEvents p v, rfl, ?_, ?_, ?_, ?_⟩ <;>
    simp only [numericEvents, hmin, hmax]
  · intro h1 h2
    rw [if_neg (by linarith), if_neg (by linarith)]
  · intro h1
    rw [if_pos h1]
  · intro h1 h2
    rw [if_neg (by linarith), if_pos h1]
  · split_ifs <;> simp [Event.severity]

/-- C3 witness: the spec scenario `NumericParameter("mag", min=4, max=8)`
checked at `9` — returned unchanged with one warning naming `mag`, `9`
and the offending bound `8`. -/
theorem numeric_check_soft_bounds_witness :
    ∃ evs : List Event,
      (NumericParameter.mk "mag" false (some 4) (some 8) none).check (some 9) =
        .ok (some 9, evs) ∧
      ((4 : ℚ) ≤ 9 → (9 : ℚ) ≤ 8 → evs = []) ∧
      ((9 : ℚ) < 4 → evs = [Event.numBelowMin "mag" 9 4]) ∧
      ((8 : ℚ) < 9 → (4 : ℚ) ≤ 9 → evs = [Event.numAboveMax "mag" 9 8]) ∧
      ∀ e ∈ evs, e.severity = Severity.warning :=
  numeric_check_soft_bounds ⟨"mag", false, some 4, some 8, none⟩ 4 8 9 rfl rfl

/-- C4: for every `CategoricalParameter` and present value, `check`
returns the value unchanged; a value not among the options yields exactly
one event listing the allowed options whose severity is `error` iff the
parameter is required (else `warning`); a value in the options yields no
event. -/
theorem categorical_check_severity (p : CategoricalParameter) (v : String) :
    (v ∉ p.options → ∃ sev : Severity,
      p.check (some v) = .ok (v, [Event.catNotOption sev p.name v p.options]) ∧
      (sev = Severity.error ↔ p.required = true)) ∧
    (v ∈ p.options → p.check (some v) = .ok (v, [])) := by
  constructor
  · intro h
    refine ⟨if p.required then .error else .warning, ?_, ?_⟩
    · simp [CategoricalParameter.check, h]
    · cases p.required <;> simp
  · intro h
    simp [CategoricalParameter.check, h]

/-- C4 witness: the spec scenario
`CategoricalParameter("mechanism", required=True, options=["SS", "NM", "RS"])`
checked at `"XX"` — returned unchanged with one error-severity event
listing the options. -/
theorem categorical_check_severity_witness :
    (CategoricalParameter.mk "mechanism" true ["SS", "NM", "RS"] "").check
        (some "XX") =
      .ok ("XX",
        [Event.catNotOption Severity.error "mechanism" "XX"
          ["SS", "NM", "RS"]]) := by
  obtain ⟨sev, hck, hiff⟩ :=
    (categorical_check_severity ⟨"mechanism", true, ["SS", "NM", "RS"], ""⟩
      "XX").1 (by decide)
  rw [hiff.mpr rfl] at hck
  exact hck

/-- C8: for every parameter spec (numeric or categorical) that is not
required, checking an absent value returns the declared default, with no
event and no error. -/
theorem absent_not_required_returns_default (p : ParamSpec)
    (hreq : p.required = false) :
    p.checkVal none = .ok (p.defaultVal, []) := by
  cases p with
  | num q =>
      simp only [ParamSpec.required] at hreq
      simp [ParamSpec.checkVal, NumericParameter.check, hreq,
        ParamSpec.defaultVal]
  | cat q =>
      simp only [ParamSpec.required] at hreq
      simp [ParamSpec.checkVal, CategoricalParameter.check, hreq,
        ParamSpec.defaultVal]

/-- C8 witness: an optional categorical parameter with default `"CA"`,
checked absent. -/
theorem absent_not_required_returns_default_witness :
    (ParamSpec.cat ⟨"region", false, ["CA", "JP"], "CA"⟩).checkVal none =
      .ok (some (PVal.cat "CA"), []) :=
  absent_not_required_returns_default
    (ParamSpec.cat ⟨"region", false, ["CA", "JP"], "CA"⟩) rfl

/-- C10: the default substituted for an absent non-required parameter is
never itself validated: the numeric default is returned with no event even
when it lies outside `[min, max]`, and the categorical default is returned
with no event even when it is not one of the options. -/
theorem default_never_validated (pn : NumericParameter)
    (pc : CategoricalParameter) (d mn mx : ℚ)
    (hreqn : pn.required = false) (hd : pn.default = some d)
    (_hmn : pn.min = some mn) (_hmx : pn.max = some mx)
    (_hout : d < mn ∨ mx < d)
    (hreqc : pc.required = false) (_hopt : pc.default ∉ pc.options) :
    pn.check none = .ok (some d, []) ∧
    pc.check none = .ok (pc.default, []) := by
  constructor
  · simp [NumericParameter.check, hreqn, hd]
  · simp [CategoricalParameter.check, hreqc]

/-- C10 witness: a numeric default `100` outside bounds `[4, 8]` and the
empty-string categorical default absent from the options, both returned
unvalidated and event-free. -/
theorem default_never_validated_witness :
    (NumericParameter.mk "mag" false (some 4) (some 8) (some 100)).check
        none = .ok (some 100, []) ∧
    (CategoricalParameter.mk "mechanism" false ["SS"] "").check none =
      .ok ("", []) :=
  default_never_validated ⟨"mag", false, some 4, some 8, some 100⟩
    ⟨"mechanism", false, ["SS"], ""⟩ 100 4 8 rfl rfl rfl rfl
    (Or.inr (by norm_num)) rfl (by decide)

/-! ### Model construction -/

/-- All keyword arguments supplied for declared parameters have the kind
(numeric/categorical) the declaration expects. -/
def WellTyped (params : List ParamSpec) (kwds : List (String × PVal)) : Prop :=
  ∀ p ∈ params, ∀ v, kwdGet kwds p.name = some v → p.kindMatches v = true

lemma checkVal_none_required (p : ParamSpec) (h : p.required = true) :
    p.checkVal none = .error (.valueError p.name "is a required parameter") := by
  cases p with
  | num q =>
      simp only [ParamSpec.required] at h
      simp [ParamSpec.checkVal, NumericParameter.check, h, ParamSpec.name]
  | cat q =>
      simp only [ParamSpec.required] at h
      simp [ParamSpec.checkVal, CategoricalParameter.check, h, ParamSpec.name]

lemma checkVal_none_optional (p : ParamSpec) (h : p.required = false) :
    p.checkVal none = .ok (p.defaultVal, []) := by
  cases p with
  | num q =>
      simp only [ParamSpec.required] at h
      simp [ParamSpec.checkVal, NumericParameter.check, h,
        ParamSpec.defaultVal]
  | cat q =>
      simp only [ParamSpec.required] at h
      simp [ParamSpec.checkVal, CategoricalParameter.check, h,
        ParamSpec.defaultVal]

lemma numericEvents_names (p : NumericParameter) (v : ℚ) :
    ∀ e ∈ numericEvents p v, e.name = p.name := by
  obtain ⟨n, req, mn, mx, d⟩ := p
  intro e he
  rcases mn with _ | mn <;> rcases mx with _ | mx <;>
    simp only [numericEvents, List.not_mem_nil] at he <;>
    split_ifs at he <;>
    simp only [List.mem_singleton, List.not_mem_nil] at he <;>
    subst he <;> rfl

lemma checkVal_some_ok (p : ParamSpec) (v : PVal)
    (h : p.kindMatches v = true) :
    ∃ rv evs, p.checkVal (some v) = .ok (rv, evs) ∧
      ∀ e ∈ evs, e.name = p.name := by
  cases p with
  | num q =>
      cases v with
      | num x =>
          exact ⟨some (PVal.num x), numericEvents q x,
            rfl, numericEvents_names q x⟩
      | cat s => simp [ParamSpec.kindMatches] at h
  | cat q =>
      cases v with
      | num x => simp [ParamSpec.kindMatches] at h
      | cat s =>
          by_cases hs : s ∈ q.options
          · exact ⟨some (PVal.cat s), [],
              by simp [ParamSpec.checkVal, CategoricalParameter.check, hs],
              by simp⟩
          · refine ⟨some (PVal.cat s),
              [Event.catNotOption (if q.required then .error else .warning)
                q.name s q.options], ?_, ?_⟩
            · simp [ParamSpec.checkVal, CategoricalParameter.check, hs]
            · simp [Event.name, ParamSpec.name]

lemma modelInit_error_of_missing (params : List ParamSpec)
    (kwds : List (String × PVal)) (p : ParamSpec)
    (hp : p ∈ params) (hreq : p.required = true)
    (habs : kwdGet kwds p.name = none)
    (honly : ∀ q ∈ params, q.required = true → kwdGet kwds q.name = none →
      q.name = p.name)
    (hwt : WellTyped params kwds) :
    modelInit params kwds =
      .error (.valueError p.name "is a required parameter") := by
  induction params with
  | nil => cases hp
  | cons q rest ih =>
      cases hv : kwdGet kwds q.name with
      | none =>
          cases hqr : q.required with
          | true =>
              have hname : q.name = p.name :=
                honly q (List.mem_cons_self q rest) hqr hv
              simp only [modelInit, hv, checkVal_none_required q hqr]
              rw [hname]
          | false =>
              have hpq : p ≠ q := fun hpq => by
                rw [hpq] at hreq; rw [hreq] at hqr; cases hqr
              have hp' : p ∈ rest := by
                cases List.mem_cons.mp hp with
                | inl h => exact absurd h hpq
                | inr h => exact h
              have htail := ih hp'
                (fun r hr hrq hrabs =>
                  honly r (List.mem_cons_of_mem q hr) hrq hrabs)
                (fun r hr v hv => hwt r (List.mem_cons_of_mem q hr) v hv)
              simp only [modelInit, hv, checkVal_none_optional q hqr, htail]
      | some v =>
          have hq : q.kindMatches v = true :=
            hwt q (List.mem_cons_self q rest) v hv
          obtain ⟨rv, evs, hok, _⟩ := checkVal_some_ok q v hq
          have hname : q.name ≠ p.name := fun hn => by
            rw [hn, habs] at hv; cases hv
          have hp' : p ∈ rest := by
            cases List.mem_cons.mp hp with
            | inl h => exact absurd (h ▸ rfl) hname
            | inr h => exact h
          have htail := ih hp'
            (fun r hr hrq hrabs =>
              honly r (List.mem_cons_of_mem q hr) hrq hrabs)
            (fun r hr v hv => hwt r (List.mem_cons_of_mem q hr) v hv)
          simp [modelInit, hv, hok, htail]

lemma modelInit_ok_of_supplied (params : List ParamSpec)
    (kwds : List (String × PVal))
    (hall : ∀ q ∈ params, q.required = true →
      ∃ v, kwdGet kwds q.name = some v)
    (hwt : WellTyped params kwds) :
    ∃ r, modelInit params kwds = .ok r := by
  induction params with
  | nil => exact ⟨([], []), rfl⟩
  | cons q rest ih =>
      obtain ⟨⟨tail, evs2⟩, htail⟩ := ih
        (fun r hr hrq => hall r (List.mem_cons_of_mem q hr) hrq)
        (fun r hr v hv => hwt r (List.mem_cons_of_mem q hr) v hv)
      cases hv : kwdGet kwds q.name with
      | none =>
          cases hqr : q.required with
          | true =>
              obtain ⟨v, hv'⟩ := hall q (List.mem_cons_self q rest) hqr
              rw [hv] at hv'; cases hv'
          | false =>
              exact ⟨((q.name, q.defaultVal) :: tail, [] ++ evs2),
                by simp [modelInit, hv, checkVal_none_optional q hqr, htail]⟩
      | some v =>
          have hq : q.kindMatches v = true :=
            hwt q (List.mem_cons_self q rest) v hv
          obtain ⟨rv, evs, hok, _⟩ := checkVal_some_ok q v hq
          exact ⟨((q.name, rv) :: tail, evs ++ evs2),
            by simp [modelInit, hv, hok, htail]⟩

/-- C2: constructing a model while omitting a declared required parameter
(the only omitted required one, other arguments well-typed) raises the
required-parameter `ValueError` carrying the name of that parameter, aborting
construction; constructing with every required parameter supplied (and all
arguments well-typed) succeeds with no error. -/
theorem required_param_construction (params : List ParamSpec)
    (kwds₁ kwds₂ : List (String × PVal)) (p : ParamSpec)
    (hp : p ∈ params) (hreq : p.required = true)
    (habs : kwdGet kwds₁ p.name = none)
    (honly : ∀ q ∈ params, q.required = true → kwdGet kwds₁ q.name = none →
      q.name = p.name)
    (hwt₁ : WellTyped params kwds₁)
    (hall : ∀ q ∈ params, q.required = true →
      ∃ v, kwdGet kwds₂ q.name = some v)
    (hwt₂ : WellTyped params kwds₂) :
    modelInit params kwds₁ =
      .error (.valueError p.name "is a required parameter") ∧
    ∃ r, modelInit params kwds₂ = .ok r :=
  ⟨modelInit_error_of_missing params kwds₁ p hp hreq habs honly hwt₁,
   modelInit_ok_of_supplied params kwds₂ hall hwt₂⟩

/-- C2 witness: a single required numeric parameter `mag`; omitting it
fails with the required-parameter error naming `mag`, supplying `6`
succeeds. -/
theorem required_param_construction_witness :
    modelInit [ParamSpec.num ⟨"mag", true, some 4, some 8, none⟩] [] =
      .error (.valueError "mag" "is a required parameter") ∧
    ∃ r, modelInit [ParamSpec.num ⟨"mag", true, some 4, some 8, none⟩]
      [("mag", PVal.num 6)] = .ok r :=
  required_param_construction
    [ParamSpec.num ⟨"mag", true, some 4, some 8, none⟩]
    [] [("mag", PVal.num 6)]
    (ParamSpec.num ⟨"mag", true, some 4, some 8, none⟩)
    (List.mem_singleton.mpr rfl) rfl rfl
    (fun q hq _ _ => congrArg ParamSpec.name (List.mem_singleton.mp hq))
    (by intro q hq v hv; simp [kwdGet] at hv)
    (by
      intro q hq hqr
      rw [List.mem_singleton.mp hq]
      exact ⟨PVal.num 6, by simp [kwdGet, ParamSpec.name]⟩)
    (by
      intro q hq v hv
      rw [List.mem_singleton.mp hq] at hv ⊢
      simp [kwdGet, ParamSpec.name] at hv
      rw [← hv]
      rfl)

lemma checkVal_event_names (p : ParamSpec) (ov : Option PVal)
    (rv : Option PVal) (evs : List Event)
    (h : p.checkVal ov = .ok (rv, evs)) :
    ∀ e ∈ evs, e.name = p.name := by
  cases p with
  | num q =>
      cases ov with
      | none =>
          cases hqr : q.required with
          | true =>
              rw [checkVal_none_required (ParamSpec.num q) hqr] at h
              cases h
          | false =>
              rw [checkVal_none_optional (ParamSpec.num q) hqr] at h
              cases h
              simp
      | some v =>
          cases v with
          | num x =>
              rw [show (ParamSpec.num q).checkVal (some (PVal.num x)) =
                  .ok (some (PVal.num x), numericEvents q x) from rfl] at h
              cases h
              exact numericEvents_names q x
          | cat s => simp [ParamSpec.checkVal] at h
  | cat q =>
      cases ov with
      | none =>
          cases hqr : q.required with
          | true =>
              rw [checkVal_none_required (ParamSpec.cat q) hqr] at h
              cases h
          | false =>
              rw [checkVal_none_optional (ParamSpec.cat q) hqr] at h
              cases h
              simp
      | some v =>
          cases v with
          | num x => simp [ParamSpec.checkVal] at h
          | cat s =>
              by_cases hs : s ∈ q.options
              · rw [show (ParamSpec.cat q).checkVal (some (PVal.cat s)) =
                    .ok (some (PVal.cat s), []) from by
                  simp [ParamSpec.checkVal, CategoricalParameter.check, hs]]
                  at h
                cases h
                simp
              · rw [show (ParamSpec.cat q).checkVal (some (PVal.cat s)) =
                    .ok (some (PVal.cat s),
                      [Event.catNotOption
                        (if q.required then .error else .warning)
                        q.name s q.options]) from by
                  simp [ParamSpec.checkVal, CategoricalParameter.check, hs]]
                  at h
                cases h
                intro e he
                simp only [List.mem_singleton] at he
                subst he
                rfl

lemma modelInit_keys (params : List ParamSpec) (kwds : List (String × PVal))
    (r : List (String × Option PVal)) (evs : List Event)
    (h : modelInit params kwds = .ok (r, evs)) :
    r.map Prod.fst = params.map ParamSpec.name := by
  induction params generalizing r evs with
  | nil =>
      simp only [modelInit, Except.ok.injEq, Prod.mk.injEq] at h
      obtain ⟨h1, _⟩ := h
      subst h1
      simp
  | cons q rest ih =>
      cases hcv : ParamSpec.checkVal q (kwdGet kwds q.name) with
      | error e => simp [modelInit, hcv] at h
      | ok ve =>
          obtain ⟨v, evs1⟩ := ve
          cases htl : modelInit rest kwds with
          | error e => simp [modelInit, hcv, htl] at h
          | ok te =>
              obtain ⟨tail, evs2⟩ := te
              simp only [modelInit, hcv, htl, Except.ok.injEq,
                Prod.mk.injEq] at h
              obtain ⟨h1, _⟩ := h
              subst h1
              simp [ih tail evs2 htl]

lemma modelInit_event_names (params : List ParamSpec)
    (kwds : List (String × PVal)) (r : List (String × Option PVal))
    (evs : List Event) (h : modelInit params kwds = .ok (r, evs)) :
    ∀ e ∈ evs, e.name ∈ params.map ParamSpec.name := by
  induction params generalizing r evs with
  | nil =>
      simp only [modelInit, Except.ok.injEq, Prod.mk.injEq] at h
      obtain ⟨_, h2⟩ := h
      subst h2
      simp
  | cons q rest ih =>
      cases hcv : ParamSpec.checkVal q (kwdGet kwds q.name) with
      | error e => simp [modelInit, hcv] at h
      | ok ve =>
          obtain ⟨v, evs1⟩ := ve
          cases htl : modelInit rest kwds with
          | error e => simp [modelInit, hcv, htl] at h
          | ok te =>
              obtain ⟨tail, evs2⟩ := te
              simp only [modelInit, hcv, htl, Except.ok.injEq,
                Prod.mk.injEq] at h
              obtain ⟨_, h2⟩ := h
              subst h2
              intro e he
              rw [List.map_cons]
              rcases List.mem_append.mp he with he1 | he2
              · exact List.mem_cons.mpr
                  (Or.inl (checkVal_event_names q _ v evs1 hcv e he1))
              · exact List.mem_cons.mpr (Or.inr (ih tail evs2 htl e he2))

/-- C9: after a successful construction, the resolved `params` mapping has
exactly the declared parameter names as keys (in declaration order), and a
keyword argument whose name is not declared in `PARAMS` is silently
ignored: it is never stored in `params` and no emitted event refers to
it. -/
theorem params_keys_match_declared (params : List ParamSpec)
    (kwds : List (String × PVal)) (r : List (String × Option PVal))
    (evs : List Event) (h : modelInit params kwds = .ok (r, evs)) :
    r.map Prod.fst = params.map ParamSpec.name ∧
    ∀ k v, (k, v) ∈ kwds → k ∉ params.map ParamSpec.name →
      (∀ x, (k, x) ∉ r) ∧ ∀ e ∈ evs, e.name ≠ k := by
  have hk := modelInit_keys params kwds r evs h
  refine ⟨hk, ?_⟩
  intro k v _ hnot
  constructor
  · intro x hx
    exact hnot (hk ▸ List.mem_map.mpr ⟨(k, x), hx, rfl⟩)
  · intro e he hek
    exact hnot (hek ▸ modelInit_event_names params kwds r evs h e he)

/-- C9 witness: a model declaring only the optional numeric parameter
`mag`, constructed with the undeclared keyword `bogus`: the resolved
mapping has exactly the key `mag` and `bogus` is nowhere stored or
reported. -/
theorem params_keys_match_declared_witness :
    ([("mag", (none : Option PVal))].map Prod.fst =
      [ParamSpec.num ⟨"mag", false, some 4, some 8, none⟩].map
        ParamSpec.name) ∧
    ∀ k v, (k, v) ∈ [("bogus", PVal.num 1)] →
      k ∉ [ParamSpec.num ⟨"mag", false, some 4, some 8, none⟩].map
        ParamSpec.name →
      (∀ x, (k, x) ∉ [("mag", (none : Option PVal))]) ∧
      ∀ e ∈ ([] : List Event), e.name ≠ k :=
  params_keys_match_declared
    [ParamSpec.num ⟨"mag", false, some 4, some 8, none⟩]
    [("bogus", PVal.num 1)] [("mag", none)] [] rfl

/-! ### Interpolation -/

lemma interpGo_knot (pts : List (ℝ × ℝ)) :
    ∀ (x1 y1 : ℝ), (∀ b ∈ pts, x1 < b.1) →
    pts.Pairwise (fun a b => a.1 < b.1) →
    ∀ (j : ℕ) (hj : j < pts.length),
      interpGo (pts.get ⟨j, hj⟩).1 x1 y1 pts = (pts.get ⟨j, hj⟩).2 := by
  induction pts with
  | nil =>
      intro x1 y1 _ _ j hj
      exact absurd hj (by simp)
  | cons hd rest ih =>
      intro x1 y1 hlt hpw j hj
      obtain ⟨x2, y2⟩ := hd
      obtain ⟨hhead, htail⟩ := List.pairwise_cons.mp hpw
      cases j with
      | zero =>
          have hx : x1 < x2 := hlt (x2, y2) (List.mem_cons_self _ _)
          have hne : x2 - x1 ≠ 0 := sub_ne_zero.mpr (ne_of_gt hx)
          simp only [List.get, interpGo]
          rw [if_pos le_rfl, mul_div_assoc, div_self hne, mul_one]
          ring
      | succ jv =>
          have hjv : jv < rest.length := by simpa using hj
          have hx : x2 < (rest.get ⟨jv, hjv⟩).1 :=
            hhead _ (List.get_mem rest jv hjv)
          simp only [List.get, interpGo]
          rw [if_neg (not_le.mpr hx)]
          exact ih x2 y2 hhead htail jv hjv

lemma interpAux_knot (pts : List (ℝ × ℝ))
    (hpw : pts.Pairwise (fun a b => a.1 < b.1))
    (i : ℕ) (hi : i < pts.length) :
    interpAux (pts.get ⟨i, hi⟩).1 pts = (pts.get ⟨i, hi⟩).2 := by
  cases pts with
  | nil => exact absurd hi (by simp)
  | cons hd rest =>
      obtain ⟨x1, y1⟩ := hd
      obtain ⟨hhead, htail⟩ := List.pairwise_cons.mp hpw
      cases i with
      | zero => simp [interpAux]
      | succ jv =>
          have hjv : jv < rest.length := by simpa using hi
          have hx : x1 < (rest.get ⟨jv, hjv⟩).1 :=
            hhead _ (List.get_mem rest jv hjv)
          simp only [List.get, interpAux]
          rw [if_neg (not_le.mpr hx)]
          exact interpGo_knot rest x1 y1 hhead htail jv hjv

/-- C5: `interp_spec_accels` is idempotent at the native grid: querying a
model (with populated `_ln_resp`) at exactly its own supported periods
`PERIODS[INDICES_PSA]` — positive and strictly increasing, the invariant
the period tables satisfy — returns exactly `spec_accels`. -/
theorem interp_spec_accels_idempotent_on_grid (m : GMModel)
    (hpos : ∀ p ∈ m.periodsL, 0 < p)
    (hsorted : m.periodsL.Pairwise (· < ·)) :
    m.interp_spec_accels m.periodsL = m.spec_accels := by
  have hlog : (m.periodsL.map Real.log).Pairwise (· < ·) := by
    rw [List.pairwise_map]
    exact hsorted.imp_of_mem
      (fun ha hb hab => Real.log_lt_log (hpos _ ha) hab)
  show (npInterp (m.periodsL.map Real.log) (m.periodsL.map Real.log)
      (select m.ln_resp m.INDICES_PSA)).map Real.exp =
    (select m.ln_resp m.INDICES_PSA).map Real.exp
  have hlen : (m.periodsL.map Real.log).length =
      (select m.ln_resp m.INDICES_PSA).length := by
    simp [GMModel.periodsL, select]
  have hpts : ((m.periodsL.map Real.log).zip
      (select m.ln_resp m.INDICES_PSA)).Pairwise
      (fun a b => a.1 < b.1) := by
    rw [List.pairwise_iff_getElem] at hlog ⊢
    intro i j hi hj hij
    rw [List.getElem_zip, List.getElem_zip]
    simp only [List.length_zip] at hi hj
    exact hlog i j (by omega) (by omega) hij
  have hmain : npInterp (m.periodsL.map Real.log)
      (m.periodsL.map Real.log) (select m.ln_resp m.INDICES_PSA) =
      select m.ln_resp m.INDICES_PSA := by
    apply List.ext_getElem
    · simpa [npInterp] using hlen
    · intro n h₁ h₂
      have hnz : n < ((m.periodsL.map Real.log).zip
          (select m.ln_resp m.INDICES_PSA)).length := by
        simp only [npInterp, List.length_map] at h₁
        simp only [List.length_zip, List.length_map]
        omega
      have hget := interpAux_knot _ hpts n hnz
      simp only [List.get_eq_getElem, List.getElem_zip, List.getElem_map]
        at hget
      simp only [npInterp, List.getElem_map]
      exact hget
  rw [hmain]

/-- A two-period model with populated response arrays, used as the
concrete instance for the interpolation properties. -/
noncomputable def mGrid : GMModel where
  PERIODS := [1, 2]
  INDICES_PSA := [0, 1]
  INDEX_PGA := none
  INDEX_PGV := none
  INDEX_PGD := none
  PGV_SCALE := 1
  PGD_SCALE := 1
  ln_resp := [0, 1]
  ln_std := [0, 1]

/-- C5 witness: the two-period model queried at its own grid `[1, 2]`. -/
theorem interp_idempotent_witness :
    mGrid.interp_spec_accels mGrid.periodsL = mGrid.spec_accels :=
  interp_spec_accels_idempotent_on_grid mGrid
    (by norm_num [GMModel.periodsL, select, mGrid, List.forall_mem_cons])
    (by norm_num [GMModel.periodsL, select, mGrid, List.pairwise_cons])

/-- C6: `interp_spec_accels` and `interp_ln_stds` preserve query order:
for distinct positive periods, querying `[p2, p1]` gives the reverse of
querying `[p1, p2]` — outputs are positionally aligned with the query
sequence. -/
theorem interp_preserves_query_order (m : GMModel) (p1 p2 : ℝ)
    (_h1 : 0 < p1) (_h2 : 0 < p2) (_hne : p1 ≠ p2) :
    m.interp_spec_accels [p2, p1] =
      (m.interp_spec_accels [p1, p2]).reverse ∧
    m.interp_ln_stds [p2, p1] = (m.interp_ln_stds [p1, p2]).reverse := by
  constructor <;>
    simp [GMModel.interp_spec_accels, GMModel.interp_ln_stds, npInterp]

/-- C6 witness: the two-period model queried at `[2, 1]` versus `[1, 2]`. -/
theorem interp_preserves_query_order_witness :
    mGrid.interp_spec_accels [2, 1] =
      (mGrid.interp_spec_accels [1, 2]).reverse ∧
    mGrid.interp_ln_stds [2, 1] = (mGrid.interp_ln_stds [1, 2]).reverse :=
  interp_preserves_query_order mGrid 1 2 (by norm_num) (by norm_num)
    (by norm_num)

/-! ### Scalar accessors -/

/-- C7: with the scalar indices set and `_ln_resp` populated, `pgv` is
`exp(_ln_resp[INDEX_PGV]) * PGV_SCALE` and `pgd` is
`exp(_ln_resp[INDEX_PGD]) * PGD_SCALE` (scale applied after
exponentiation, at the accessor boundary only), while `pga` is
`exp(_ln_resp[INDEX_PGA])` with no scale factor. -/
theorem scalar_accessor_scaling (m : GMModel) (i j k : ℕ)
    (hv : m.INDEX_PGV = some i) (hd : m.INDEX_PGD = some j)
    (ha : m.INDEX_PGA = some k) :
    m.pgv = .val (Real.exp (m.ln_resp.getD i 0) * m.PGV_SCALE) ∧
    m.pgd = .val (Real.exp (m.ln_resp.getD j 0) * m.PGD_SCALE) ∧
    m.pga = .val (Real.exp (m.ln_resp.getD k 0)) := by
  refine ⟨?_, ?_, ?_⟩ <;>
    simp [GMModel.pgv, GMModel.pgd, GMModel.pga, GMModel.resp, hv, hd, ha]

/-- A model defining all three scalar indices, with `_ln_resp` zero at
each, `PGV_SCALE = 2` and `PGD_SCALE = 3`. -/
noncomputable def mScalar : GMModel where
  PERIODS := [1]
  INDICES_PSA := [0]
  INDEX_PGA := some 0
  INDEX_PGV := some 1
  INDEX_PGD := some 2
  PGV_SCALE := 2
  PGD_SCALE := 3
  ln_resp := [0, 0, 0]
  ln_std := [0, 0, 0]

/-- C7 witness: the spec scenario `_ln_resp[INDEX_PGV] = 0`,
`PGV_SCALE = 2.0` gives `pgv == 2.0`; likewise `pgd == 3.0` and
`pga == 1.0` (unscaled). -/
theorem scalar_accessor_scaling_witness :
    mScalar.pgv = ScalarResult.val 2 ∧ mScalar.pgd = ScalarResult.val 3 ∧
    mScalar.pga = ScalarResult.val 1 := by
  obtain ⟨h1, h2, h3⟩ := scalar_accessor_scaling mScalar 1 2 0 rfl rfl rfl
  refine ⟨?_, ?_, ?_⟩
  · rw [h1]
    norm_num [mScalar, Real.exp_zero]
  · rw [h2]
    norm_num [mScalar, Real.exp_zero]
  · rw [h3]
    norm_num [mScalar, Real.exp_zero]

/-- A model whose scalar indices are all the unsupported sentinel
(`None`). -/
noncomputable def mNoPga : GMModel where
  PERIODS := [1]
  INDICES_PSA := [0]
  INDEX_PGA := none
  INDEX_PGV := none
  INDEX_PGD := none
  PGV_SCALE := 1
  PGD_SCALE := 1
  ln_resp := [0]
  ln_std := [0]

/-- C1: on a model whose `INDEX_PGA` (resp. `INDEX_PGV`, `INDEX_PGD`) is
the unsupported sentinel, the accessor does NOT fail: the statement
`return NotImplementedError` in the source hands the exception class back
to the caller as an ordinary value (no exception is raised), contradicting
the docstring of the accessor (`Raises: NotImplementedError`) and the claimed
`UnsupportedQuantityError`-kind failure. -/
theorem pga_unsupported_returns_error_type :
    mNoPga.pga = ScalarResult.notImplementedError ∧
    mNoPga.pgv = ScalarResult.notImplementedError ∧
    mNoPga.pgd = ScalarResult.notImplementedError :=
  ⟨rfl, rfl, rfl⟩

end Pygmm
